import Mathlib

/-!
Shallow embedding of the cube-state and move engine of the
`rubik_cube_solver` web application (script.js / RubikCubeSolver class).

Every definition below is translated directly from the JavaScript source:
the cube is six 3x3 sticker grids (faces `U D F B L R`, in the insertion
order of the constructor object literal), a sticker holds one of the six
palette colors or the `empty` sentinel, and the move engine mutates the
grid by the fixed permutations coded in `rotateR` .. `rotateBPrime`.
-/

/-- The sticker values of the JS model: the six palette colors plus the
`empty` sentinel used for unset stickers. -/
inductive Color where
  | white
  | yellow
  | red
  | orange
  | blue
  | green
  | empty
deriving DecidableEq

/-- One 3x3 sticker grid (`this.cube[face]` in the source); field `mRC`
is the entry at row `R`, column `C`. -/
structure Face where
  m00 : Color
  m01 : Color
  m02 : Color
  m10 : Color
  m11 : Color
  m12 : Color
  m20 : Color
  m21 : Color
  m22 : Color
deriving DecidableEq

/-- The full cube state: one grid per face, in the constructor insertion
order `U, D, F, B, L, R`. -/
structure Cube where
  U : Face
  D : Face
  F : Face
  B : Face
  L : Face
  R : Face
deriving DecidableEq

/-- `rotateFaceClockwise` from the source: the in-place clockwise
permutation of the nine stickers of one face. -/
def rotateFaceClockwise (f : Face) : Face :=
  { m00 := f.m20, m01 := f.m10, m02 := f.m00,
    m10 := f.m21, m11 := f.m11, m12 := f.m01,
    m20 := f.m22, m21 := f.m12, m22 := f.m02 }

/-- `rotateFaceCounterClockwise` from the source. -/
def rotateFaceCounterClockwise (f : Face) : Face :=
  { m00 := f.m02, m01 := f.m12, m02 := f.m22,
    m10 := f.m01, m11 := f.m11, m12 := f.m21,
    m20 := f.m00, m21 := f.m10, m22 := f.m20 }

/-- `rotateR`: right face clockwise, with the adjacent band
`U -> B -> D -> F -> U` cycled as in the source (the source saves the `U`
column 2 in `temp` before overwriting, so each target reads the
pre-move value of its source face). -/
def rotateR (c : Cube) : Cube :=
  { c with
    R := rotateFaceClockwise c.R,
    U := { c.U with m02 := c.F.m02, m12 := c.F.m12, m22 := c.F.m22 },
    F := { c.F with m02 := c.D.m02, m12 := c.D.m12, m22 := c.D.m22 },
    D := { c.D with m02 := c.B.m20, m12 := c.B.m10, m22 := c.B.m00 },
    B := { c.B with m00 := c.U.m22, m10 := c.U.m12, m20 := c.U.m02 } }

/-- `rotateRPrime`: right face counter-clockwise. -/
def rotateRPrime (c : Cube) : Cube :=
  { c with
    R := rotateFaceCounterClockwise c.R,
    U := { c.U with m02 := c.B.m20, m12 := c.B.m10, m22 := c.B.m00 },
    B := { c.B with m00 := c.D.m22, m10 := c.D.m12, m20 := c.D.m02 },
    D := { c.D with m02 := c.F.m02, m12 := c.F.m12, m22 := c.F.m22 },
    F := { c.F with m02 := c.U.m02, m12 := c.U.m12, m22 := c.U.m22 } }

/-- `rotateL`: left face clockwise. -/
def rotateL (c : Cube) : Cube :=
  { c with
    L := rotateFaceClockwise c.L,
    U := { c.U with m00 := c.B.m22, m10 := c.B.m12, m20 := c.B.m02 },
    B := { c.B with m02 := c.D.m20, m12 := c.D.m10, m22 := c.D.m00 },
    D := { c.D with m00 := c.F.m00, m10 := c.F.m10, m20 := c.F.m20 },
    F := { c.F with m00 := c.U.m00, m10 := c.U.m10, m20 := c.U.m20 } }

/-- `rotateLPrime`: left face counter-clockwise. -/
def rotateLPrime (c : Cube) : Cube :=
  { c with
    L := rotateFaceCounterClockwise c.L,
    U := { c.U with m00 := c.F.m00, m10 := c.F.m10, m20 := c.F.m20 },
    F := { c.F with m00 := c.D.m00, m10 := c.D.m10, m20 := c.D.m20 },
    D := { c.D with m00 := c.B.m22, m10 := c.B.m12, m20 := c.B.m02 },
    B := { c.B with m02 := c.U.m20, m12 := c.U.m10, m22 := c.U.m00 } }

/-- `rotateU`: up face clockwise. -/
def rotateU (c : Cube) : Cube :=
  { c with
    U := rotateFaceClockwise c.U,
    F := { c.F with m00 := c.R.m00, m01 := c.R.m01, m02 := c.R.m02 },
    R := { c.R with m00 := c.B.m00, m01 := c.B.m01, m02 := c.B.m02 },
    B := { c.B with m00 := c.L.m00, m01 := c.L.m01, m02 := c.L.m02 },
    L := { c.L with m00 := c.F.m00, m01 := c.F.m01, m02 := c.F.m02 } }

/-- `rotateUPrime`: up face counter-clockwise. -/
def rotateUPrime (c : Cube) : Cube :=
  { c with
    U := rotateFaceCounterClockwise c.U,
    F := { c.F with m00 := c.L.m00, m01 := c.L.m01, m02 := c.L.m02 },
    L := { c.L with m00 := c.B.m00, m01 := c.B.m01, m02 := c.B.m02 },
    B := { c.B with m00 := c.R.m00, m01 := c.R.m01, m02 := c.R.m02 },
    R := { c.R with m00 := c.F.m00, m01 := c.F.m01, m02 := c.F.m02 } }

/-- `rotateD`: down face clockwise. -/
def rotateD (c : Cube) : Cube :=
  { c with
    D := rotateFaceClockwise c.D,
    F := { c.F with m20 := c.L.m20, m21 := c.L.m21, m22 := c.L.m22 },
    L := { c.L with m20 := c.B.m20, m21 := c.B.m21, m22 := c.B.m22 },
    B := { c.B with m20 := c.R.m20, m21 := c.R.m21, m22 := c.R.m22 },
    R := { c.R with m20 := c.F.m20, m21 := c.F.m21, m22 := c.F.m22 } }

/-- `rotateDPrime`: down face counter-clockwise. -/
def rotateDPrime (c : Cube) : Cube :=
  { c with
    D := rotateFaceCounterClockwise c.D,
    F := { c.F with m20 := c.R.m20, m21 := c.R.m21, m22 := c.R.m22 },
    R := { c.R with m20 := c.B.m20, m21 := c.B.m21, m22 := c.B.m22 },
    B := { c.B with m20 := c.L.m20, m21 := c.L.m21, m22 := c.L.m22 },
    L := { c.L with m20 := c.F.m20, m21 := c.F.m21, m22 := c.F.m22 } }

/-- `rotateF`: front face clockwise. -/
def rotateF (c : Cube) : Cube :=
  { c with
    F := rotateFaceClockwise c.F,
    U := { c.U with m20 := c.L.m22, m21 := c.L.m12, m22 := c.L.m02 },
    L := { c.L with m02 := c.D.m00, m12 := c.D.m01, m22 := c.D.m02 },
    D := { c.D with m00 := c.R.m20, m01 := c.R.m10, m02 := c.R.m00 },
    R := { c.R with m00 := c.U.m20, m10 := c.U.m21, m20 := c.U.m22 } }

/-- `rotateFPrime`: front face counter-clockwise. -/
def rotateFPrime (c : Cube) : Cube :=
  { c with
    F := rotateFaceCounterClockwise c.F,
    U := { c.U with m20 := c.R.m00, m21 := c.R.m10, m22 := c.R.m20 },
    R := { c.R with m00 := c.D.m02, m10 := c.D.m01, m20 := c.D.m00 },
    D := { c.D with m00 := c.L.m02, m01 := c.L.m12, m02 := c.L.m22 },
    L := { c.L with m02 := c.U.m22, m12 := c.U.m21, m22 := c.U.m20 } }

/-- `rotateB`: back face clockwise. -/
def rotateB (c : Cube) : Cube :=
  { c with
    B := rotateFaceClockwise c.B,
    U := { c.U with m00 := c.R.m02, m01 := c.R.m12, m02 := c.R.m22 },
    R := { c.R with m02 := c.D.m22, m12 := c.D.m21, m22 := c.D.m20 },
    D := { c.D with m20 := c.L.m00, m21 := c.L.m10, m22 := c.L.m20 },
    L := { c.L with m00 := c.U.m02, m10 := c.U.m01, m20 := c.U.m00 } }

/-- `rotateBPrime`: back face counter-clockwise. -/
def rotateBPrime (c : Cube) : Cube :=
  { c with
    B := rotateFaceCounterClockwise c.B,
    U := { c.U with m00 := c.L.m20, m01 := c.L.m10, m02 := c.L.m00 },
    L := { c.L with m00 := c.D.m22, m10 := c.D.m21, m20 := c.D.m20 },
    D := { c.D with m20 := c.R.m22, m21 := c.R.m12, m22 := c.R.m02 },
    R := { c.R with m02 := c.U.m00, m12 := c.U.m01, m22 := c.U.m02 } }

/-- The face letter of a move token (`[RLUDFB]` in `CubeSolver.isValidMove`). -/
inductive FaceLetter where
  | U
  | D
  | F
  | B
  | L
  | R
deriving DecidableEq

/-- The optional modifier of a move token: none (quarter clockwise), the
apostrophe (quarter counter-clockwise), or `2` (half turn). -/
inductive Modifier where
  | plain
  | prime
  | double
deriving DecidableEq

/-- A valid move token, i.e. a face letter with an optional prime-or-2 modifier; modeled
structurally as face letter plus modifier. -/
structure MoveTok where
  face : FaceLetter
  modif : Modifier
deriving DecidableEq

/-- `performCubeMove`: dispatch on the 18 move tokens exactly as the JS
switch does (the `X2` cases call the clockwise rotation twice). -/
def performCubeMove (mv : MoveTok) (c : Cube) : Cube :=
  match mv with
  | ⟨.R, .plain⟩ => rotateR c
  | ⟨.R, .prime⟩ => rotateRPrime c
  | ⟨.R, .double⟩ => rotateR (rotateR c)
  | ⟨.L, .plain⟩ => rotateL c
  | ⟨.L, .prime⟩ => rotateLPrime c
  | ⟨.L, .double⟩ => rotateL (rotateL c)
  | ⟨.U, .plain⟩ => rotateU c
  | ⟨.U, .prime⟩ => rotateUPrime c
  | ⟨.U, .double⟩ => rotateU (rotateU c)
  | ⟨.D, .plain⟩ => rotateD c
  | ⟨.D, .prime⟩ => rotateDPrime c
  | ⟨.D, .double⟩ => rotateD (rotateD c)
  | ⟨.F, .plain⟩ => rotateF c
  | ⟨.F, .prime⟩ => rotateFPrime c
  | ⟨.F, .double⟩ => rotateF (rotateF c)
  | ⟨.B, .plain⟩ => rotateB c
  | ⟨.B, .prime⟩ => rotateBPrime c
  | ⟨.B, .double⟩ => rotateB (rotateB c)

/-- `CubeSolver.invertMove`: a token ending in the apostrophe drops it, a
token ending in `2` is returned unchanged, otherwise the apostrophe is
appended. -/
def invertMove (mv : MoveTok) : MoveTok :=
  match mv.modif with
  | .prime => ⟨mv.face, .plain⟩
  | .double => mv
  | .plain => ⟨mv.face, .prime⟩

/-- A face painted with a single color. -/
def uniformFace (col : Color) : Face :=
  { m00 := col, m01 := col, m02 := col,
    m10 := col, m11 := col, m12 := col,
    m20 := col, m21 := col, m22 := col }

/-- The solved configuration under the color convention of the source
(`U` white, `D` yellow, `F` blue, `B` green, `L` orange, `R` red). -/
def solvedCube : Cube :=
  { U := uniformFace .white, D := uniformFace .yellow, F := uniformFace .blue,
    B := uniformFace .green, L := uniformFace .orange, R := uniformFace .red }

/-- A solved cube except that the bottom-left sticker of the left face is
white; it separates `rotateBPrime` from the true inverse of `rotateB`. -/
def bugCube : Cube :=
  { solvedCube with L := { uniformFace .orange with m20 := .white } }

/-- A solved cube except that the top-left sticker of the up face is unset:
53 colored stickers. -/
def oneEmptyCube : Cube :=
  { solvedCube with U := { uniformFace .white with m00 := .empty } }

/-- A fully colored cube with ten white stickers and eight blue ones
(solved except that the top-left sticker of the front face is white). -/
def tenEightCube : Cube :=
  { solvedCube with F := { uniformFace .blue with m00 := .white } }

/-- The initial cube of the constructor: every sticker `empty`. -/
def initialCube : Cube :=
  { U := uniformFace .empty, D := uniformFace .empty, F := uniformFace .empty,
    B := uniformFace .empty, L := uniformFace .empty, R := uniformFace .empty }

/-- The 54 stickers in the traversal order of `Object.values(this.cube)`:
faces `U, D, F, B, L, R` (constructor insertion order), row-major. -/
def allStickers (c : Cube) : List Color :=
  [c.U.m00, c.U.m01, c.U.m02, c.U.m10, c.U.m11, c.U.m12, c.U.m20, c.U.m21, c.U.m22,
   c.D.m00, c.D.m01, c.D.m02, c.D.m10, c.D.m11, c.D.m12, c.D.m20, c.D.m21, c.D.m22,
   c.F.m00, c.F.m01, c.F.m02, c.F.m10, c.F.m11, c.F.m12, c.F.m20, c.F.m21, c.F.m22,
   c.B.m00, c.B.m01, c.B.m02, c.B.m10, c.B.m11, c.B.m12, c.B.m20, c.B.m21, c.B.m22,
   c.L.m00, c.L.m01, c.L.m02, c.L.m10, c.L.m11, c.L.m12, c.L.m20, c.L.m21, c.L.m22,
   c.R.m00, c.R.m01, c.R.m02, c.R.m10, c.R.m11, c.R.m12, c.R.m20, c.R.m21, c.R.m22]

/-- `colorCounts[color] = (colorCounts[color] || 0) + 1`: increment the
entry of `col` if present, otherwise append a fresh entry (JS object
property order is insertion order). -/
def bump : List (Color × Nat) → Color → List (Color × Nat)
  | [], col => [(col, 1)]
  | (c, n) :: rest, col =>
      if c = col then (c, n + 1) :: rest else (c, n) :: bump rest col

/-- The color-count pass shared by `updateCubeStatus` and `isValidCube`:
fold over the stickers, skipping `empty`, building the insertion-ordered
histogram. -/
def histo : List Color → List (Color × Nat) → List (Color × Nat)
  | [], h => h
  | col :: rest, h =>
      histo rest (if col = Color.empty then h else bump h col)

/-- First-match association lookup in a histogram, defaulting to 0. -/
def lookupCount : List (Color × Nat) → Color → Nat
  | [], _ => 0
  | (c, n) :: rest, col => if c = col then n else lookupCount rest col

/-- The structured result of `isValidCube`: the JS returns
`{valid, message}` where the message carries the offending count or
color; the constructors carry the same data. -/
inductive ValidationResult where
  | valid
  | incomplete (count : Nat)
  | colorCount (color : Color) (count : Nat)
  | colorVariety (count : Nat)
deriving DecidableEq

/-- `isValidCube`: count the non-empty stickers and the per-color
histogram in one pass, then (1) fail if the total is not 54, else
(2) fail on the first histogram entry whose count is not 9, else
(3) fail if the number of distinct colors is not 6, else succeed. -/
def isValidCube (c : Cube) : ValidationResult :=
  if (allStickers c).countP (fun col => col != Color.empty) ≠ 54 then
    .incomplete ((allStickers c).countP (fun col => col != Color.empty))
  else
    match (histo (allStickers c) []).find? (fun e => e.2 != 9) with
    | some e => .colorCount e.1 e.2
    | none =>
        if (histo (allStickers c) []).length ≠ 6 then
          .colorVariety (histo (allStickers c) []).length
        else .valid

/-- `this.colorMap`: the canonical color-to-facelet table; any value
outside the six palette colors (in particular `empty`) is unmapped. -/
def colorMap : Color → Option Char
  | .white => some 'U'
  | .yellow => some 'D'
  | .red => some 'R'
  | .orange => some 'L'
  | .blue => some 'F'
  | .green => some 'B'
  | .empty => none

/-- The 54 stickers in the traversal order of `toKociembaString`:
faces `U, R, F, D, L, B` (the Kociemba face order), row-major. -/
def kociembaStickers (c : Cube) : List Color :=
  [c.U.m00, c.U.m01, c.U.m02, c.U.m10, c.U.m11, c.U.m12, c.U.m20, c.U.m21, c.U.m22,
   c.R.m00, c.R.m01, c.R.m02, c.R.m10, c.R.m11, c.R.m12, c.R.m20, c.R.m21, c.R.m22,
   c.F.m00, c.F.m01, c.F.m02, c.F.m10, c.F.m11, c.F.m12, c.F.m20, c.F.m21, c.F.m22,
   c.D.m00, c.D.m01, c.D.m02, c.D.m10, c.D.m11, c.D.m12, c.D.m20, c.D.m21, c.D.m22,
   c.L.m00, c.L.m01, c.L.m02, c.L.m10, c.L.m11, c.L.m12, c.L.m20, c.L.m21, c.L.m22,
   c.B.m00, c.B.m01, c.B.m02, c.B.m10, c.B.m11, c.B.m12, c.B.m20, c.B.m21, c.B.m22]

/-- The left-to-right encoding loop of `toKociembaString`: translate each
sticker through `colorMap`, aborting with the first untranslatable color
(the JS `throw new Error`). -/
def encodeStickers : List Color → Except Color (List Char)
  | [] => .ok []
  | col :: rest =>
      match colorMap col with
      | some ch =>
          match encodeStickers rest with
          | .ok s => .ok (ch :: s)
          | .error e => .error e
      | none => .error col

/-- `toKociembaString`: the 54-facelet encoding, or the first unmapped
color as the error. -/
def toKociembaString (c : Cube) : Except Color (List Char) :=
  encodeStickers (kociembaStickers c)

/-- The fixed 16-token pool of the mock-solution fallback in
`generateSolution`. -/
def mockMoves : List MoveTok :=
  [⟨.R, .plain⟩, ⟨.U, .plain⟩, ⟨.R, .prime⟩, ⟨.U, .prime⟩,
   ⟨.F, .plain⟩, ⟨.R, .plain⟩, ⟨.F, .prime⟩, ⟨.U, .double⟩,
   ⟨.R, .prime⟩, ⟨.U, .prime⟩, ⟨.R, .plain⟩, ⟨.U, .plain⟩,
   ⟨.R, .prime⟩, ⟨.F, .prime⟩, ⟨.U, .plain⟩, ⟨.F, .plain⟩]

/-- `generateSolution`: `resp` models the solver interaction
(`some solution` when the API call succeeds with `data.success`, `none`
when the fetch fails or the response is unsuccessful — the `throw`
inside the `try` block lands in the same `catch`).  On failure the JS
returns a mock solution of `Math.floor(Math.random()*10)+8` moves drawn
randomly from `mockMoves`; the random draws are modeled by `randLen` and
`pick`. -/
def generateSolution (resp : Option (List MoveTok)) (randLen : Nat)
    (pick : Nat → Nat) : List MoveTok :=
  match resp with
  | some sol => sol
  | none =>
      (List.range (randLen % 10 + 8)).map
        (fun i => (mockMoves.getD (pick i % 16) ⟨.R, .plain⟩))

/-- The `assignments` array of `scrambleCube` before shuffling: nine
stickers of each color, pushed in the order
`white, yellow, red, orange, blue, green`. -/
def baseAssignments : List Color :=
  List.replicate 9 .white ++ List.replicate 9 .yellow ++ List.replicate 9 .red ++
  List.replicate 9 .orange ++ List.replicate 9 .blue ++ List.replicate 9 .green

/-- The same array viewed as a function on positions. -/
def baseAssignFn : Fin 54 → Color :=
  fun k => baseAssignments.getD k.val .empty

/-- One step of the destructuring swap
`[assignments[i], assignments[j]] = [assignments[j], assignments[i]]`. -/
def swapAt (g : Fin 54 → Color) (i j : Fin 54) : Fin 54 → Color :=
  fun k => if k = i then g j else if k = j then g i else g k

/-- The Fisher-Yates loop `for (i = 53; i > 0; i--)` of `scrambleCube`:
at index `i` swap with `j = Math.floor(Math.random()*(i+1))`, modeled as
`f i % (i+1)` for an arbitrary draw function `f`.  The loop runs `i`
from 53 down to 1, so both indices stay below 54 and the `% 54` in the
`Fin` packaging never truncates. -/
def shuffleAux (f : Nat → Nat) : Nat → (Fin 54 → Color) → (Fin 54 → Color)
  | 0, g => g
  | n + 1, g =>
      shuffleAux f n
        (swapAt g ⟨(n + 1) % 54, by omega⟩ ⟨(f (n + 1) % (n + 2)) % 54, by omega⟩)

/-- The shuffled `assignments` array. -/
def scrambleAssignments (f : Nat → Nat) : Fin 54 → Color :=
  shuffleAux f 53 baseAssignFn

/-- The local path of `scrambleCube`: write `assignments[index++]` into
the faces in `Object.keys(this.cube)` order (`U, D, F, B, L, R`),
row-major. -/
def scrambleCube (f : Nat → Nat) : Cube :=
  let a := scrambleAssignments f
  { U := { m00 := a 0, m01 := a 1, m02 := a 2, m10 := a 3, m11 := a 4,
           m12 := a 5, m20 := a 6, m21 := a 7, m22 := a 8 },
    D := { m00 := a 9, m01 := a 10, m02 := a 11, m10 := a 12, m11 := a 13,
           m12 := a 14, m20 := a 15, m21 := a 16, m22 := a 17 },
    F := { m00 := a 18, m01 := a 19, m02 := a 20, m10 := a 21, m11 := a 22,
           m12 := a 23, m20 := a 24, m21 := a 25, m22 := a 26 },
    B := { m00 := a 27, m01 := a 28, m02 := a 29, m10 := a 30, m11 := a 31,
           m12 := a 32, m20 := a 33, m21 := a 34, m22 := a 35 },
    L := { m00 := a 36, m01 := a 37, m02 := a 38, m10 := a 39, m11 := a 40,
           m12 := a 41, m20 := a 42, m21 := a 43, m22 := a 44 },
    R := { m00 := a 45, m01 := a 46, m02 := a 47, m10 := a 48, m11 := a 49,
           m12 := a 50, m20 := a 51, m21 := a 52, m22 := a 53 } }

/-- The 54 values of a position-indexed sticker assignment, in position
order. -/
def stickersOf (g : Fin 54 → Color) : List Color :=
  (List.finRange 54).map g

/-- The playback-relevant fields of the `RubikCubeSolver` instance:
the editable 2D cube, the 3D working copy, the loaded solution and the
cursor. -/
structure PlayerState where
  cube : Cube
  cube3D : Cube
  solutionSteps : List MoveTok
  currentStep : Nat
deriving DecidableEq

/-- `copyTo3DCube`: reset the working 3D state to a deep copy of the 2D
cube. -/
def copyTo3DCube (p : PlayerState) : PlayerState :=
  { p with cube3D := p.cube }

/-- Apply a move sequence to a cube state left to right. -/
def replay (c : Cube) (moves : List MoveTok) : Cube :=
  moves.foldl (fun acc mv => performCubeMove mv acc) c

/-- `goToStep(stepNumber)`: when `0 <= stepNumber <= solutionSteps.length`,
reset the 3D cube to the 2D state, apply `solutionSteps[0..stepNumber-1]`
in order, and set the cursor. -/
def goToStep (stepNumber : Nat) (p : PlayerState) : PlayerState :=
  if stepNumber ≤ p.solutionSteps.length then
    { (p.solutionSteps.take stepNumber).foldl
        (fun q mv => { q with cube3D := performCubeMove mv q.cube3D })
        (copyTo3DCube p) with
      currentStep := stepNumber }
  else p

/-- `previousStep`: when the cursor is positive, decrement it (the JS
body only updates `currentStep` and the step display). -/
def previousStep (p : PlayerState) : PlayerState :=
  if 0 < p.currentStep then { p with currentStep := p.currentStep - 1 } else p

/-- `nextStep`: when the cursor is below the sequence length, apply the
move at the cursor to the 3D cube and increment the cursor. -/
def nextStep (p : PlayerState) : PlayerState :=
  if h : p.currentStep < p.solutionSteps.length then
    { p with
      cube3D := performCubeMove (p.solutionSteps.get ⟨p.currentStep, h⟩) p.cube3D,
      currentStep := p.currentStep + 1 }
  else p

/-- The three-move demonstration sequence `[R, U, F-prime]` of spec §8. -/
def demoMoves : List MoveTok :=
  [⟨.R, .plain⟩, ⟨.U, .plain⟩, ⟨.F, .prime⟩]

/-- A freshly loaded player: solved editor cube, `demoMoves`, cursor 0. -/
def demoPlayer : PlayerState :=
  { cube := solvedCube, cube3D := solvedCube,
    solutionSteps := demoMoves, currentStep := 0 }

/-- Claim C1: applying the quarter-clockwise move of any face four times
returns every cube state to its pre-application value, and applying the
half-turn move of that face twice does as well. -/
theorem performCubeMove_order (s : Cube) (f : FaceLetter) :
    performCubeMove ⟨f, .plain⟩ (performCubeMove ⟨f, .plain⟩
      (performCubeMove ⟨f, .plain⟩ (performCubeMove ⟨f, .plain⟩ s))) = s ∧
    performCubeMove ⟨f, .double⟩ (performCubeMove ⟨f, .double⟩ s) = s := by
  cases f <;> exact ⟨rfl, rfl⟩

/-- Witness for C1: the law evaluated at the solved cube and the up face. -/
theorem performCubeMove_order_witness :
    performCubeMove ⟨.U, .plain⟩ (performCubeMove ⟨.U, .plain⟩
      (performCubeMove ⟨.U, .plain⟩ (performCubeMove ⟨.U, .plain⟩ solvedCube))) = solvedCube ∧
    performCubeMove ⟨.U, .double⟩ (performCubeMove ⟨.U, .double⟩ solvedCube) = solvedCube :=
  performCubeMove_order solvedCube .U

/-- Claim C2 (code bug): applying the clockwise back turn `B` and then
`invertMove B = B-prime` does NOT restore the state: `rotateBPrime`
reads the Left column from the Down row in reversed order
(`L[0][0] = D[2][2]` .. `L[2][0] = D[2][0]`), while inverting `rotateB`
(which wrote `D[2][0] = L[0][0]` .. `D[2][2] = L[2][0]`) requires the
straight order.  On `bugCube` the white sticker ends at `L[0][0]`
instead of returning to `L[2][0]`. -/
theorem invertMove_B_code_bug :
    performCubeMove (invertMove ⟨.B, .plain⟩)
      (performCubeMove ⟨.B, .plain⟩ bugCube) ≠ bugCube ∧
    (performCubeMove (invertMove ⟨.B, .plain⟩)
      (performCubeMove ⟨.B, .plain⟩ bugCube)).L.m00 = Color.white ∧
    bugCube.L.m00 = Color.orange := by
  refine ⟨by decide, rfl, rfl⟩

/-- Claim C9: every one of the 18 moves leaves the center sticker
(row 1, col 1) of all six faces unchanged. -/
theorem centers_fixed (s : Cube) (mv : MoveTok) :
    (performCubeMove mv s).U.m11 = s.U.m11 ∧
    (performCubeMove mv s).D.m11 = s.D.m11 ∧
    (performCubeMove mv s).F.m11 = s.F.m11 ∧
    (performCubeMove mv s).B.m11 = s.B.m11 ∧
    (performCubeMove mv s).L.m11 = s.L.m11 ∧
    (performCubeMove mv s).R.m11 = s.R.m11 := by
  obtain ⟨f, m⟩ := mv
  cases f <;> cases m <;> exact ⟨rfl, rfl, rfl, rfl, rfl, rfl⟩

/-- Witness for C9: center preservation at the solved cube under a
clockwise right turn. -/
theorem centers_fixed_witness :
    (performCubeMove ⟨.R, .plain⟩ solvedCube).U.m11 = solvedCube.U.m11 ∧
    (performCubeMove ⟨.R, .plain⟩ solvedCube).D.m11 = solvedCube.D.m11 ∧
    (performCubeMove ⟨.R, .plain⟩ solvedCube).F.m11 = solvedCube.F.m11 ∧
    (performCubeMove ⟨.R, .plain⟩ solvedCube).B.m11 = solvedCube.B.m11 ∧
    (performCubeMove ⟨.R, .plain⟩ solvedCube).L.m11 = solvedCube.L.m11 ∧
    (performCubeMove ⟨.R, .plain⟩ solvedCube).R.m11 = solvedCube.R.m11 :=
  centers_fixed solvedCube ⟨.R, .plain⟩

theorem lookupCount_bump (h : List (Color × Nat)) (col x : Color) :
    lookupCount (bump h col) x =
      if x = col then lookupCount h col + 1 else lookupCount h x := by
  induction h with
  | nil =>
      by_cases hx : x = col
      · subst hx; simp [bump, lookupCount]
      · simp [bump, lookupCount, hx, Ne.symm hx]
  | cons e rest ih =>
      obtain ⟨c, n⟩ := e
      by_cases hc : c = col
      · subst hc
        by_cases hx : x = c
        · subst hx; simp [bump, lookupCount]
        · simp [bump, lookupCount, hx, Ne.symm hx]
      · by_cases hx : x = c
        · subst hx
          have hxcol : x ≠ col := fun hh => hc hh
          simp [bump, lookupCount, hc, hxcol]
        · simp [bump, lookupCount, hc, Ne.symm hx, hx, ih]

theorem keys_bump (h : List (Color × Nat)) (col x : Color) :
    x ∈ (bump h col).map Prod.fst ↔ x ∈ h.map Prod.fst ∨ x = col := by
  induction h with
  | nil => simp [bump]
  | cons e rest ih =>
      obtain ⟨c, n⟩ := e
      by_cases hc : c = col
      · subst hc
        have hb : bump ((c, n) :: rest) c = (c, n + 1) :: rest := by simp [bump]
        rw [hb]
        simp only [List.map_cons, List.mem_cons]
        tauto
      · have hb : bump ((c, n) :: rest) col = (c, n) :: bump rest col := by
          simp [bump, hc]
        rw [hb]
        simp only [List.map_cons, List.mem_cons, ih]
        tauto

theorem nodup_keys_bump (h : List (Color × Nat)) (col : Color)
    (hn : (h.map Prod.fst).Nodup) : ((bump h col).map Prod.fst).Nodup := by
  induction h with
  | nil => simp [bump]
  | cons e rest ih =>
      obtain ⟨c, n⟩ := e
      simp only [List.map_cons, List.nodup_cons] at hn
      by_cases hc : c = col
      · subst hc
        have hb : bump ((c, n) :: rest) c = (c, n + 1) :: rest := by simp [bump]
        rw [hb]
        simp only [List.map_cons, List.nodup_cons]
        exact hn
      · have hb : bump ((c, n) :: rest) col = (c, n) :: bump rest col := by
          simp [bump, hc]
        rw [hb]
        simp only [List.map_cons, List.nodup_cons]
        refine ⟨?_, ih hn.2⟩
        rw [keys_bump]
        rintro (hmem | rfl)
        · exact hn.1 hmem
        · exact hc rfl

theorem entry_eq_lookupCount (h : List (Color × Nat)) (x : Color) (n : Nat)
    (hn : (h.map Prod.fst).Nodup) (hmem : (x, n) ∈ h) :
    n = lookupCount h x := by
  induction h with
  | nil => cases hmem
  | cons e rest ih =>
      obtain ⟨c, m⟩ := e
      simp only [List.map_cons, List.nodup_cons] at hn
      rcases List.mem_cons.1 hmem with heq | htail
      · injection heq with h1 h2
        subst h1
        subst h2
        simp [lookupCount]
      · have hx : x ∈ rest.map Prod.fst := List.mem_map.2 ⟨(x, n), htail, rfl⟩
        have hcx : c ≠ x := fun hh => hn.1 (hh ▸ hx)
        simpa [lookupCount, hcx] using ih hn.2 htail

theorem lookupCount_histo (l : List Color) (h : List (Color × Nat)) (x : Color)
    (hx : x ≠ Color.empty) :
    lookupCount (histo l h) x = lookupCount h x + l.count x := by
  induction l generalizing h with
  | nil => simp [histo]
  | cons col rest ih =>
      by_cases hcol : col = Color.empty
      · subst hcol
        have hcx : ¬ (Color.empty == x) = true := by
          simp [Ne.symm hx]
        simp [histo, List.count_cons, hcx, ih]
      · by_cases hx2 : x = col
        · subst hx2
          simp [histo, hcol, List.count_cons, ih, lookupCount_bump]
          omega
        · have hcx : ¬ (col == x) = true := by
            simp only [beq_iff_eq]
            exact fun hh => hx2 hh.symm
          simp [histo, hcol, List.count_cons, hcx, ih, lookupCount_bump, hx2]

theorem keys_histo (l : List Color) (h : List (Color × Nat)) (x : Color) :
    x ∈ (histo l h).map Prod.fst ↔
      x ∈ h.map Prod.fst ∨ (x ∈ l ∧ x ≠ Color.empty) := by
  induction l generalizing h with
  | nil => simp [histo]
  | cons col rest ih =>
      by_cases hcol : col = Color.empty
      · subst hcol
        simp only [histo, if_pos rfl, ih, List.mem_cons]
        constructor
        · rintro (hh | ⟨hr, hne⟩)
          · exact Or.inl hh
          · exact Or.inr ⟨Or.inr hr, hne⟩
        · rintro (hh | ⟨rfl | hr, hne⟩)
          · exact Or.inl hh
          · exact absurd rfl hne
          · exact Or.inr ⟨hr, hne⟩
      · simp only [histo, if_neg hcol, ih, keys_bump, List.mem_cons]
        constructor
        · rintro ((hh | rfl) | ⟨hr, hne⟩)
          · exact Or.inl hh
          · exact Or.inr ⟨Or.inl rfl, hcol⟩
          · exact Or.inr ⟨Or.inr hr, hne⟩
        · rintro (hh | ⟨rfl | hr, hne⟩)
          · exact Or.inl (Or.inl hh)
          · exact Or.inl (Or.inr rfl)
          · exact Or.inr ⟨hr, hne⟩

theorem nodup_keys_histo (l : List Color) (h : List (Color × Nat))
    (hn : (h.map Prod.fst).Nodup) : ((histo l h).map Prod.fst).Nodup := by
  induction l generalizing h with
  | nil => simpa [histo] using hn
  | cons col rest ih =>
      by_cases hcol : col = Color.empty
      · subst hcol
        simpa only [histo, if_pos rfl] using ih h hn
      · simpa only [histo, if_neg hcol] using ih (bump h col) (nodup_keys_bump h col hn)

theorem histo_entry (l : List Color) (x : Color) (n : Nat)
    (hmem : (x, n) ∈ histo l []) :
    x ≠ Color.empty ∧ x ∈ l ∧ n = l.count x := by
  have hkeys : x ∈ (histo l []).map Prod.fst :=
    List.mem_map.2 ⟨(x, n), hmem, rfl⟩
  have hx : x ∈ l ∧ x ≠ Color.empty := by
    rcases (keys_histo l [] x).1 hkeys with hh | hh
    · simp at hh
    · exact hh
  have hnd : ((histo l []).map Prod.fst).Nodup := nodup_keys_histo l [] (by simp)
  have hlk : n = lookupCount (histo l []) x := entry_eq_lookupCount _ x n hnd hmem
  have hcount : lookupCount (histo l []) x = l.count x := by
    simpa [lookupCount] using lookupCount_histo l [] x hx.2
  exact ⟨hx.2, hx.1, hlk.trans hcount⟩

theorem snd_sum_bump (h : List (Color × Nat)) (col : Color) :
    ((bump h col).map Prod.snd).sum = (h.map Prod.snd).sum + 1 := by
  induction h with
  | nil => simp [bump]
  | cons e rest ih =>
      obtain ⟨c, n⟩ := e
      by_cases hc : c = col
      · subst hc; simp [bump]; omega
      · simp [bump, hc, ih]; omega

theorem snd_sum_histo (l : List Color) (h : List (Color × Nat)) :
    ((histo l h).map Prod.snd).sum =
      (h.map Prod.snd).sum + l.countP (fun col => col != Color.empty) := by
  induction l generalizing h with
  | nil => simp [histo]
  | cons col rest ih =>
      by_cases hcol : col = Color.empty
      · subst hcol
        simp [histo, List.countP_cons, ih]
      · simp [histo, hcol, List.countP_cons, ih, snd_sum_bump]
        omega

theorem countP_ne_empty_add_count (l : List Color) :
    l.countP (fun col => col != Color.empty) + l.count Color.empty = l.length := by
  induction l with
  | nil => simp
  | cons col rest ih =>
      by_cases hcol : col = Color.empty
      · subst hcol; simp [List.countP_cons, List.count_cons]; omega
      · simp [List.countP_cons, List.count_cons, hcol]
        omega

theorem sum_const_nine (L : List Nat) (h : ∀ x ∈ L, x = 9) :
    L.sum = 9 * L.length := by
  induction L with
  | nil => simp
  | cons x rest ih =>
      have hx : x = 9 := h x (List.mem_cons_self x rest)
      have hrest : rest.sum = 9 * rest.length :=
        ih (fun y hy => h y (List.mem_cons_of_mem x hy))
      simp [hx, hrest, List.length_cons]
      ring

theorem valid_of_nine_counts (c : Cube)
    (h54 : (allStickers c).countP (fun col => col != Color.empty) = 54)
    (h9 : ∀ e ∈ histo (allStickers c) [], e.2 = 9) :
    (histo (allStickers c) []).length = 6 ∧ isValidCube c = .valid := by
  have hsum : ((histo (allStickers c) []).map Prod.snd).sum = 54 := by
    have hh := snd_sum_histo (allStickers c) []
    simpa [h54] using hh
  have hall9 : ∀ x ∈ (histo (allStickers c) []).map Prod.snd, x = 9 := by
    intro x hx
    obtain ⟨e, he, rfl⟩ := List.mem_map.1 hx
    exact h9 e he
  have hlen9 := sum_const_nine _ hall9
  have hlm : ((histo (allStickers c) []).map Prod.snd).length =
      (histo (allStickers c) []).length := List.length_map _ _
  have hlen : (histo (allStickers c) []).length = 6 := by omega
  refine ⟨hlen, ?_⟩
  have hfind : (histo (allStickers c) []).find? (fun e => e.2 != 9) = none := by
    rw [List.find?_eq_none]
    intro e he
    simp [h9 e he]
  simp [isValidCube, h54, hfind, hlen]

/-- Claim C10: the final check of `isValidCube` is unreachable as a
failure: whenever the first two checks pass (54 non-empty stickers and
every histogram entry counting exactly 9), the histogram necessarily has
exactly 6 entries, so validation returns the valid result. -/
theorem colorVariety_unreachable (c : Cube)
    (h54 : (allStickers c).countP (fun col => col != Color.empty) = 54)
    (h9 : ∀ e ∈ histo (allStickers c) [], e.2 = 9) :
    (histo (allStickers c) []).length = 6 ∧ isValidCube c = .valid :=
  valid_of_nine_counts c h54 h9

/-- Witness for C10: the unreachability consequence evaluated on the
solved cube. -/
theorem colorVariety_unreachable_witness :
    (histo (allStickers solvedCube) []).length = 6 ∧
      isValidCube solvedCube = .valid :=
  colorVariety_unreachable solvedCube (by decide) (by decide)

/-- Claim C3: `isValidCube` runs its three checks in fixed order and
reports only the first failure — a wrong total yields the incomplete
error with that count; otherwise a histogram entry with a count other
than 9 yields the color-count error carrying that color and its true
count; otherwise the variety check decides; and on the three concrete
examples it returns valid, incomplete-53, and a color-count error for
white appearing 10 times. -/
theorem isValidCube_spec (c : Cube) :
    ((allStickers c).countP (fun col => col != Color.empty) ≠ 54 →
      isValidCube c =
        .incomplete ((allStickers c).countP (fun col => col != Color.empty))) ∧
    ((allStickers c).countP (fun col => col != Color.empty) = 54 →
      (∃ e ∈ histo (allStickers c) [], e.2 ≠ 9) →
      ∃ x n, (x, n) ∈ histo (allStickers c) [] ∧ x ≠ Color.empty ∧
        n = (allStickers c).count x ∧ n ≠ 9 ∧
        isValidCube c = .colorCount x n) ∧
    ((allStickers c).countP (fun col => col != Color.empty) = 54 →
      (∀ e ∈ histo (allStickers c) [], e.2 = 9) →
      ((histo (allStickers c) []).length ≠ 6 →
        isValidCube c = .colorVariety (histo (allStickers c) []).length) ∧
      ((histo (allStickers c) []).length = 6 → isValidCube c = .valid)) ∧
    isValidCube solvedCube = .valid ∧
    isValidCube oneEmptyCube = .incomplete 53 ∧
    isValidCube tenEightCube = .colorCount Color.white 10 := by
  refine ⟨?_, ?_, ?_, by decide, by decide, by decide⟩
  · intro h
    simp [isValidCube, h]
  · intro h54 hex
    have hsome : ((histo (allStickers c) []).find? (fun e => e.2 != 9)).isSome := by
      rw [List.find?_isSome]
      obtain ⟨e, he, hne⟩ := hex
      exact ⟨e, he, by simpa using hne⟩
    obtain ⟨e, hfind⟩ := Option.isSome_iff_exists.1 hsome
    obtain ⟨x, n⟩ := e
    have hmem : (x, n) ∈ histo (allStickers c) [] := List.mem_of_find?_eq_some hfind
    have hpe : n ≠ 9 := by simpa using List.find?_some hfind
    obtain ⟨hxe, _, hcnt⟩ := histo_entry (allStickers c) x n hmem
    refine ⟨x, n, hmem, hxe, hcnt, hpe, ?_⟩
    simp [isValidCube, h54, hfind]
  · intro h54 h9
    have hfind : (histo (allStickers c) []).find? (fun e => e.2 != 9) = none := by
      rw [List.find?_eq_none]
      intro e he
      simp [h9 e he]
    constructor
    · intro hlen
      simp [isValidCube, h54, hfind, hlen]
    · intro hlen
      simp [isValidCube, h54, hfind, hlen]

/-- Witness for C3: the first-check clause applied to the
53-sticker example. -/
theorem isValidCube_spec_witness :
    isValidCube oneEmptyCube =
      .incomplete ((allStickers oneEmptyCube).countP (fun col => col != Color.empty)) :=
  (isValidCube_spec oneEmptyCube).1 (by decide)

theorem encodeStickers_ok (l : List Color)
    (h : ∀ col ∈ l, (colorMap col).isSome) :
    encodeStickers l = .ok (l.filterMap colorMap) := by
  induction l with
  | nil => simp [encodeStickers]
  | cons col rest ih =>
      obtain ⟨ch, hch⟩ :=
        Option.isSome_iff_exists.1 (h col (List.mem_cons_self col rest))
      have hrest := ih (fun y hy => h y (List.mem_cons_of_mem col hy))
      simp [encodeStickers, hch, hrest]

theorem encodeStickers_err (l : List Color)
    (h : ∃ col ∈ l, colorMap col = none) :
    ∃ col, col ∈ l ∧ colorMap col = none ∧ encodeStickers l = .error col := by
  induction l with
  | nil => simp at h
  | cons col rest ih =>
      by_cases hc : colorMap col = none
      · exact ⟨col, List.mem_cons_self col rest, hc, by simp [encodeStickers, hc]⟩
      · obtain ⟨ch, hch⟩ := Option.ne_none_iff_exists.1 hc
        have hex : ∃ y ∈ rest, colorMap y = none := by
          obtain ⟨y, hy, hyn⟩ := h
          rcases List.mem_cons.1 hy with rfl | hyr
          · exact absurd hyn hc
          · exact ⟨y, hyr, hyn⟩
        obtain ⟨y, hyr, hyn, herr⟩ := ih hex
        refine ⟨y, List.mem_cons_of_mem col hyr, hyn, ?_⟩
        simp [encodeStickers, hch.symm, herr]

theorem length_filterMap_all_some (l : List Color)
    (h : ∀ col ∈ l, (colorMap col).isSome) :
    (l.filterMap colorMap).length = l.length := by
  induction l with
  | nil => simp
  | cons col rest ih =>
      obtain ⟨ch, hch⟩ :=
        Option.isSome_iff_exists.1 (h col (List.mem_cons_self col rest))
      have hrest := ih (fun y hy => h y (List.mem_cons_of_mem col hy))
      simp [List.filterMap_cons, hch, hrest]

/-- Claim C5: when every sticker color has a canonical facelet mapping,
`toKociembaString` returns exactly the 54 facelet letters of the stickers
in the fixed `U, R, F, D, L, B` row-major order (translated through
`colorMap`); when some sticker color is unmapped (in particular the
`empty` sentinel), it fails with an error naming such a color. -/
theorem toKociembaString_spec (c : Cube) :
    ((∀ col ∈ kociembaStickers c, (colorMap col).isSome) →
      toKociembaString c = .ok ((kociembaStickers c).filterMap colorMap) ∧
      ((kociembaStickers c).filterMap colorMap).length = 54) ∧
    ((∃ col ∈ kociembaStickers c, colorMap col = none) →
      ∃ col, col ∈ kociembaStickers c ∧ colorMap col = none ∧
        toKociembaString c = .error col) := by
  constructor
  · intro h
    refine ⟨encodeStickers_ok _ h, ?_⟩
    rw [length_filterMap_all_some _ h]
    rfl
  · intro h
    exact encodeStickers_err _ h

/-- Witness for C5: the encoding succeeds on the solved cube and fails
with the unset sentinel on the all-empty initial cube. -/
theorem toKociembaString_spec_witness :
    (toKociembaString solvedCube = .ok ((kociembaStickers solvedCube).filterMap colorMap) ∧
      ((kociembaStickers solvedCube).filterMap colorMap).length = 54) ∧
    (∃ col, col ∈ kociembaStickers initialCube ∧ colorMap col = none ∧
      toKociembaString initialCube = .error col) :=
  ⟨(toKociembaString_spec solvedCube).1 (by decide),
   (toKociembaString_spec initialCube).2 ⟨Color.empty, by decide, by decide⟩⟩

/-- Claim C4 (code bug): when the solver interaction fails, the fallback
branch of `generateSolution` returns a fabricated move list (here, with
all random draws 0: eight clockwise right turns) instead of surfacing an
error; in particular the result is a non-empty move sequence. -/
theorem generateSolution_fabricates :
    generateSolution none 0 (fun _ => 0) =
      List.replicate 8 ⟨FaceLetter.R, Modifier.plain⟩ ∧
    generateSolution none 0 (fun _ => 0) ≠ [] := by
  exact ⟨by decide, by decide⟩

theorem foldl_player (mvs : List MoveTok) (q : PlayerState) :
    ((mvs.foldl (fun q mv => { q with cube3D := performCubeMove mv q.cube3D }) q).cube3D
        = replay q.cube3D mvs) ∧
    ((mvs.foldl (fun q mv => { q with cube3D := performCubeMove mv q.cube3D }) q).cube
        = q.cube) ∧
    ((mvs.foldl (fun q mv => { q with cube3D := performCubeMove mv q.cube3D }) q).solutionSteps
        = q.solutionSteps) ∧
    ((mvs.foldl (fun q mv => { q with cube3D := performCubeMove mv q.cube3D }) q).currentStep
        = q.currentStep) := by
  induction mvs generalizing q with
  | nil => simp [replay]
  | cons mv rest ih =>
      simpa [replay, List.foldl_cons] using
        ih { q with cube3D := performCubeMove mv q.cube3D }

/-- Claim C7: for any step within the loaded sequence, `goToStep` sets
the cursor to that step and rebuilds the working 3D cube by copying the
2D cube and replaying the first `step` moves, leaving the 2D cube and
the loaded sequence untouched; `goToStep 0` restores the exact snapshot. -/
theorem goToStep_spec (p : PlayerState) (stepNumber : Nat)
    (h : stepNumber ≤ p.solutionSteps.length) :
    (goToStep stepNumber p).currentStep = stepNumber ∧
    (goToStep stepNumber p).cube3D = replay p.cube (p.solutionSteps.take stepNumber) ∧
    (goToStep stepNumber p).cube = p.cube ∧
    (goToStep stepNumber p).solutionSteps = p.solutionSteps ∧
    (goToStep 0 p).cube3D = p.cube ∧
    (goToStep 0 p).currentStep = 0 := by
  have hf := foldl_player (p.solutionSteps.take stepNumber) (copyTo3DCube p)
  have hf0 := foldl_player (p.solutionSteps.take 0) (copyTo3DCube p)
  simp only [goToStep, if_pos h, if_pos (Nat.zero_le p.solutionSteps.length),
    copyTo3DCube] at hf hf0 ⊢
  simp only [List.take_zero] at hf0
  exact ⟨trivial, hf.1, hf.2.1, hf.2.2.1, by simp [List.take_zero], trivial⟩

/-- Witness for C7: `goToStep` evaluated at step 2 (and step 0) of the
three-move demonstration player. -/
theorem goToStep_spec_witness :
    (goToStep 2 demoPlayer).currentStep = 2 ∧
    (goToStep 2 demoPlayer).cube3D = replay demoPlayer.cube (demoPlayer.solutionSteps.take 2) ∧
    (goToStep 2 demoPlayer).cube = demoPlayer.cube ∧
    (goToStep 2 demoPlayer).solutionSteps = demoPlayer.solutionSteps ∧
    (goToStep 0 demoPlayer).cube3D = demoPlayer.cube ∧
    (goToStep 0 demoPlayer).currentStep = 0 :=
  goToStep_spec demoPlayer 2 (by decide)

/-- Counterexample to claim C6 as stated: after `goToStep 3` on the
three-move demonstration player, `previousStep` decrements the cursor to
2 but leaves the working 3D cube with all three moves applied — it does
not equal the snapshot with only the first two moves replayed. -/
theorem previousStep_counterexample :
    (previousStep (goToStep 3 demoPlayer)).currentStep = 2 ∧
    (previousStep (goToStep 3 demoPlayer)).cube3D ≠
      replay (goToStep 3 demoPlayer).cube
        ((goToStep 3 demoPlayer).solutionSteps.take 2) := by
  exact ⟨by decide, by decide⟩

/-- Claim C6 (amended): when the cursor is positive, `previousStep`
decrements the cursor by one and leaves the working 3D cube, the editor
cube and the loaded sequence unchanged; it performs no
recompute-from-origin. -/
theorem previousStep_spec (p : PlayerState) (h : 0 < p.currentStep) :
    (previousStep p).currentStep = p.currentStep - 1 ∧
    (previousStep p).cube3D = p.cube3D ∧
    (previousStep p).cube = p.cube ∧
    (previousStep p).solutionSteps = p.solutionSteps := by
  simp [previousStep, h]

/-- Witness for C6 (amended): `previousStep` evaluated at cursor 3 of
the three-move demonstration player. -/
theorem previousStep_spec_witness :
    (previousStep (goToStep 3 demoPlayer)).currentStep =
      (goToStep 3 demoPlayer).currentStep - 1 ∧
    (previousStep (goToStep 3 demoPlayer)).cube3D = (goToStep 3 demoPlayer).cube3D ∧
    (previousStep (goToStep 3 demoPlayer)).cube = (goToStep 3 demoPlayer).cube ∧
    (previousStep (goToStep 3 demoPlayer)).solutionSteps =
      (goToStep 3 demoPlayer).solutionSteps :=
  previousStep_spec (goToStep 3 demoPlayer) (by decide)

theorem swapAt_eq_comp (g : Fin 54 → Color) (i j : Fin 54) :
    swapAt g i j = fun k => g (Equiv.swap i j k) := by
  funext k
  simp only [swapAt, Equiv.swap_apply_def]
  split_ifs <;> rfl

theorem finRange_map_perm (e : Equiv.Perm (Fin 54)) :
    ((List.finRange 54).map e).Perm (List.finRange 54) := by
  apply List.perm_of_nodup_nodup_toFinset_eq
  · exact (List.nodup_finRange 54).map e.injective
  · exact List.nodup_finRange 54
  · ext x
    simp only [List.mem_toFinset, List.mem_map, List.mem_finRange, true_and,
      iff_true]
    exact ⟨e.symm x, e.apply_symm_apply x⟩

theorem count_stickersOf_swapAt (g : Fin 54 → Color) (i j : Fin 54) (col : Color) :
    (stickersOf (swapAt g i j)).count col = (stickersOf g).count col := by
  rw [stickersOf, stickersOf, swapAt_eq_comp]
  have h1 : (List.finRange 54).map (fun k => g (Equiv.swap i j k)) =
      ((List.finRange 54).map (Equiv.swap i j)).map g := by
    rw [List.map_map]
    rfl
  rw [h1]
  exact ((finRange_map_perm (Equiv.swap i j)).map g).count_eq col

theorem count_shuffleAux (f : Nat → Nat) (n : Nat) (g : Fin 54 → Color)
    (col : Color) :
    (stickersOf (shuffleAux f n g)).count col = (stickersOf g).count col := by
  induction n generalizing g with
  | zero => rfl
  | succ m ih =>
      simp only [shuffleAux]
      rw [ih, count_stickersOf_swapAt]

theorem base_counts (col : Color) :
    (stickersOf baseAssignFn).count col = if col = Color.empty then 0 else 9 := by
  cases col <;> decide

theorem allStickers_scrambleCube (f : Nat → Nat) :
    allStickers (scrambleCube f) = stickersOf (scrambleAssignments f) := rfl

/-- Claim C8: the local balanced-paint path of `scrambleCube` always
fills all 54 positions (no sticker stays unset), gives every color
exactly 9 occurrences, and hence passes `isValidCube`, for every
possible sequence of random draws. -/
theorem scrambleCube_balanced (f : Nat → Nat) :
    Color.empty ∉ allStickers (scrambleCube f) ∧
    (∀ col : Color, col ≠ Color.empty →
      (allStickers (scrambleCube f)).count col = 9) ∧
    isValidCube (scrambleCube f) = .valid := by
  have hcount : ∀ col : Color,
      (allStickers (scrambleCube f)).count col =
        if col = Color.empty then 0 else 9 := by
    intro col
    rw [allStickers_scrambleCube]
    calc (stickersOf (scrambleAssignments f)).count col
        = (stickersOf baseAssignFn).count col :=
          count_shuffleAux f 53 baseAssignFn col
      _ = if col = Color.empty then 0 else 9 := base_counts col
  have hempty0 : (allStickers (scrambleCube f)).count Color.empty = 0 := by
    simpa using hcount Color.empty
  have hnotmem : Color.empty ∉ allStickers (scrambleCube f) :=
    List.count_eq_zero.1 hempty0
  have hlen : (allStickers (scrambleCube f)).length = 54 := rfl
  have h54 : (allStickers (scrambleCube f)).countP
      (fun col => col != Color.empty) = 54 := by
    have hh := countP_ne_empty_add_count (allStickers (scrambleCube f))
    omega
  have h9 : ∀ e ∈ histo (allStickers (scrambleCube f)) [], e.2 = 9 := by
    intro e he
    obtain ⟨x, n⟩ := e
    obtain ⟨hxe, _, hcnt⟩ := histo_entry _ x n he
    have h9x : (allStickers (scrambleCube f)).count x = 9 := by
      have hh := hcount x
      rw [if_neg hxe] at hh
      exact hh
    show n = 9
    rw [hcnt]
    exact h9x
  refine ⟨hnotmem, ?_, (valid_of_nine_counts _ h54 h9).2⟩
  intro col hcol
  have hh := hcount col
  rw [if_neg hcol] at hh
  exact hh

/-- Witness for C8: the balanced-paint guarantees evaluated at the
all-zero draw sequence. -/
theorem scrambleCube_balanced_witness :
    Color.empty ∉ allStickers (scrambleCube (fun _ => 0)) ∧
    isValidCube (scrambleCube (fun _ => 0)) = .valid :=
  ⟨(scrambleCube_balanced (fun _ => 0)).1,
   (scrambleCube_balanced (fun _ => 0)).2.2⟩
